import Mathlib

/-!
Verification of the `codepipeline-mqtt-notifier-cdk-construct` Lambda handler
(`src/lambda/mqtt-notifier/index.js`) and its CDK construct
(`src/CodePipelineMqttNotifier.ts`), as a shallow embedding.

JavaScript values produced by `JSON.parse` and object literals are modelled by
`JsValue`; `JSON.parse` itself is an external library function and is passed
to the embedded code as an abstract partial function `String → Option JsValue`
(`none` models a parse exception).  Asynchronous waiting loops are modelled
with explicit virtual time (milliseconds as `Nat`) and a fuel parameter that
bounds the number of loop iterations; theorems assume enough fuel for the
loop's own deadline, which is what the JavaScript event loop guarantees.
-/

namespace MqttNotifier

/-- Model of a JavaScript/JSON value.  Numbers are modelled as integers,
which covers every value the claims mention.  An object is a list of
key/value pairs with distinct keys. -/
inductive JsValue where
  | vNull
  | vBool (b : Bool)
  | vNum (n : Int)
  | vStr (s : String)
  | vArr (elems : List JsValue)
  | vObj (fields : List (String × JsValue))
  deriving Repr

/-- JavaScript truthiness of a `JsValue` (`if (x)`):
`null`, `false`, `0` and `""` are falsy, every other value is truthy. -/
def truthy : JsValue → Bool
  | .vNull => false
  | .vBool b => b
  | .vNum n => n != 0
  | .vStr s => s != ""
  | .vArr _ => true
  | .vObj _ => true

/-- Field lookup in an object's field list (property access on an object). -/
def lookupField : List (String × JsValue) → String → Option JsValue
  | [], _ => none
  | (k, v) :: rest, key => if k == key then some v else lookupField rest key

/-- JavaScript property access `base[key]` for a non-nullish receiver:
`undefined` (here `none`) when the receiver is not an object or the key is
absent. -/
def jsMember : JsValue → String → Option JsValue
  | .vObj fields, key => lookupField fields key
  | _, _ => none

/-- Whether a JavaScript value is nullish (`null` or `undefined`), the
condition under which `??` picks its right operand. -/
def nullish : Option JsValue → Bool
  | none => true
  | some .vNull => true
  | some _ => false

/-- JavaScript nullish coalescing `v ?? d`. -/
def coalesce : Option JsValue → JsValue → JsValue
  | none, d => d
  | some .vNull, d => d
  | some v, _ => v

/-- JavaScript optional chain `base[k1]?.[k2]`: short-circuits to `undefined`
when `base[k1]` is nullish. -/
def optChain (base : JsValue) (k1 k2 : String) : Option JsValue :=
  match jsMember base k1 with
  | none => none
  | some .vNull => none
  | some v => jsMember v k2

/-- The outbound MQTT payload the handler builds from the inbound event
(`index.js`, `handler`, the `payload` object literal):
`eventSource`, `detailType`, `pipeline`, `state` default to `"unknown"`,
`time` defaults to `new Date().toISOString()` (passed here as `now`),
and `raw` is the inbound event itself. -/
def buildPayload (event : JsValue) (now : String) : JsValue :=
  .vObj
    [ ("eventSource", coalesce (jsMember event "source") (.vStr "unknown")),
      ("detailType", coalesce (jsMember event "detail-type") (.vStr "unknown")),
      ("pipeline", coalesce (optChain event "detail" "pipeline") (.vStr "unknown")),
      ("state", coalesce (optChain event "detail" "state") (.vStr "unknown")),
      ("time", coalesce (jsMember event "time") (.vStr now)),
      ("raw", event) ]

/-- The list of field names of an object value, in order. -/
def fieldNames : JsValue → List String
  | .vObj fields => fields.map Prod.fst
  | _ => []

/-- Model of the Secrets Manager `GetSecretValue` response: only the
`SecretString` member matters to the handler (`"SecretString" in resp`). -/
structure SecretsResponse where
  SecretString : Option String

/-- Model of `getSecret(arn)` from `index.js` after the store round-trip:
`parse` is the abstract `JSON.parse`, `arn` is the (possibly absent) secret
reference and `resp` the store response.  Returns `none` for `undefined`.
A parsed `null` is `typeof ... === "object"`, but `parsed.value` then throws
a `TypeError` which the surrounding `try` catches, so the raw string is
returned; the unwrap happens only for an object whose `value` field is
truthy. -/
def getSecret (parse : String → Option JsValue) (arn : Option String)
    (resp : SecretsResponse) : Option JsValue :=
  match arn with
  | none => none
  | some a =>
    if a == "" then none
    else
      match resp.SecretString with
      | none => none
      | some s =>
        match parse s with
        | some (.vObj fields) =>
          match lookupField fields "value" with
          | some v => if truthy v then some v else some (.vStr s)
          | none => some (.vStr s)
        | _ => some (.vStr s)

/-- Bool-valued list prefix test, the building block of `String.includes`. -/
def isPrefixList : List Char → List Char → Bool
  | [], _ => true
  | _ :: _, [] => false
  | a :: asRest, b :: bs => a == b && isPrefixList asRest bs

/-- Bool-valued contiguous-sublist test. -/
def containsSub (pat : List Char) : List Char → Bool
  | [] => isPrefixList pat []
  | c :: rest => isPrefixList pat (c :: rest) || containsSub pat rest

/-- JavaScript `s.includes(pat)`. -/
def jsIncludes (s pat : String) : Bool :=
  containsSub pat.data s.data

/-- JavaScript `s.startsWith(pre)`. -/
def jsStartsWith (s pre : String) : Bool :=
  isPrefixList pre.data s.data

/-- The placeholder sentinel the construct stores for the MQTT username
secret (`CodePipelineMqttNotifier.ts`). -/
def usernameSentinel : String := "REPLACE_WITH_MQTT_USERNAME"

/-- The placeholder warning guard for the MQTT username from the handler
variant that checks placeholders:
`if (mqttUsername && mqttUsername.includes("REPLACE_WITH_MQTT_USERNAME"))`.
`none` models `undefined` (no secret configured); an empty string is falsy
and also skips the warning. -/
def usernamePlaceholderWarn (mqttUsername : Option String) : Bool :=
  match mqttUsername with
  | none => false
  | some u => (u != "") && jsIncludes u usernameSentinel

/-- Decidable equality for `Except`, so that concrete retry outcomes can be
checked by evaluation. -/
instance exceptDecEq {E A : Type} [DecidableEq E] [DecidableEq A] :
    DecidableEq (Except E A) := fun x y =>
  match x, y with
  | .ok a, .ok b =>
    if h : a = b then .isTrue (by rw [h]) else .isFalse (by simp [h])
  | .ok _, .error _ => .isFalse (by simp)
  | .error _, .ok _ => .isFalse (by simp)
  | .error e, .error f =>
    if h : e = f then .isTrue (by rw [h]) else .isFalse (by simp [h])

/-- Observable outcome of one run of `retry` from `index.js`:
the returned/thrown value (`.ok none` models the implicit `return undefined`
when the loop body never runs, `.ok (some a)` a value returned by `fn`,
`.error e` a thrown error), the number of calls made to `fn`, and the list
of back-off sleeps performed, in milliseconds and in order. -/
structure RetryOutcome (E A : Type) where
  result : Except E (Option A)
  calls : Nat
  delays : List Nat
  deriving Repr, DecidableEq

/-- Loop body of `retry(fn, retries, delayMs)`:
`attempt` is the JavaScript loop counter (starting at 1) and `left` the
number of loop iterations the guard `attempt <= retries` still allows,
i.e. `max 0 (retries - attempt + 1)`; `left = 0` is the guard failing.
A failure on the iteration with `left = 0` remaining afterwards is the
`attempt === retries` case: the error is rethrown with no sleep; otherwise
the loop sleeps `delayMs * attempt` and continues. -/
def retryGo {E A : Type} (fn : Nat → Except E A) (delayMs attempt : Nat) :
    Nat → RetryOutcome E A
  | 0 => { result := .ok none, calls := 0, delays := [] }
  | left + 1 =>
    match fn attempt with
    | .ok a => { result := .ok (some a), calls := 1, delays := [] }
    | .error e =>
      match left with
      | 0 => { result := .error e, calls := 1, delays := [] }
      | left' + 1 =>
        let rest := retryGo fn delayMs (attempt + 1) (left' + 1)
        { result := rest.result, calls := rest.calls + 1,
          delays := delayMs * attempt :: rest.delays }

/-- `retry(fn, retries, delayMs)` from `index.js`.  `retries` is an `Int`
because JavaScript imposes no sign restriction; with the loop counter
starting at 1, the guard `attempt <= retries` allows exactly
`retries.toNat` iterations. -/
def retry {E A : Type} (fn : Nat → Except E A) (retries : Int)
    (delayMs : Nat) : RetryOutcome E A :=
  retryGo fn delayMs 1 retries.toNat

/-- One peer entry of the `tailscale status --json` output: only the
`TailscaleIPs` member is inspected (it may be absent, hence `Option`). -/
structure TsPeer where
  TailscaleIPs : Option (List String)
  deriving Repr, DecidableEq

/-- `ip.split(".")[0]` from the route-wait peer matching: the characters of
`ip` up to (excluding) the first dot. -/
def firstOctet (ip : String) : String :=
  String.mk (ip.data.takeWhile (fun c => c != '.'))

/-- The `peerOk` test of `waitForTailscaleRoute`: some advertised peer IP's
first dot-separated component is a prefix of the target IP
(`targetIp?.startsWith(ip.split(".")[0]) || false`). -/
def peerMatches (targetIp : String) (p : TsPeer) : Bool :=
  match p.TailscaleIPs with
  | some ips => ips.any (fun ip => jsStartsWith targetIp (firstOctet ip))
  | none => false

/-- The timeout error message thrown by `waitForTailscaleRoute`. -/
def tsTimeoutMsg (maxWaitMs : Nat) : String :=
  "[ERROR] Tailscale routes not ready after " ++ toString maxWaitMs ++ "ms"

/-- Loop body of `waitForTailscaleRoute`.  `polls k` is the outcome of the
`k`-th status poll: `none` when `tailscale status`, `JSON.parse` or the
`Object.values(status.Peer)` access throws (all caught by the loop's
`catch`), `some peers` for a parsed status whose `Peer` object holds
`peers`.  `fuel` is the number of iterations the `Date.now()` guard still
allows; on exhaustion the loop throws the timeout error and does not poll
again.  A poll succeeds when `peerOk` holds or the peer object is
non-empty (`Object.keys(status.Peer ?? {}).length > 0`); the result `.ok k`
records which poll succeeded. -/
def routeWaitGo (polls : Nat → Option (List TsPeer)) (targetIp : String)
    (maxWaitMs : Nat) : Nat → Nat → Except String Nat
  | _, 0 => .error (tsTimeoutMsg maxWaitMs)
  | k, fuel + 1 =>
    match polls k with
    | none => routeWaitGo polls targetIp maxWaitMs (k + 1) fuel
    | some peers =>
      if peers.any (peerMatches targetIp) || peers.length != 0 then .ok k
      else routeWaitGo polls targetIp maxWaitMs (k + 1) fuel

/-- Number of poll iterations `while (Date.now() - start < maxWaitMs)`
performs when each attempt is instantaneous and the loop sleeps
`intervalMs` between attempts: iteration `k` starts at time
`k * intervalMs`, so the guard admits `⌈maxWaitMs / intervalMs⌉`
iterations. -/
def numPolls (maxWaitMs intervalMs : Nat) : Nat :=
  (maxWaitMs + intervalMs - 1) / intervalMs

/-- `waitForTailscaleRoute({targetIp, maxWaitMs, intervalMs})` from
`index.js` (defaults `maxWaitMs = 20000`, `intervalMs = 1000`), with the
status polls abstracted as `polls`. -/
def waitForTailscaleRoute (polls : Nat → Option (List TsPeer))
    (targetIp : String) (maxWaitMs intervalMs : Nat) : Except String Nat :=
  routeWaitGo polls targetIp maxWaitMs 0 (numPolls maxWaitMs intervalMs)

/-- A poll outcome that reports no peer at all: the attempt threw, or the
status contained an empty `Peer` object. -/
def noPeerReport (o : Option (List TsPeer)) : Bool :=
  match o with
  | none => true
  | some peers => peers.isEmpty

/-- Outcome of one connection attempt of the port-readiness waiter:
success or failure, with the attempt's duration in milliseconds and, for a
failure, the error it was rejected with.  The per-attempt connection
timeout of 1000 ms (`setTimeout(..., 1000)` in `waitForSocks5Ready`,
`timeout: 1000` in `waitForPortOpen`) caps a failure's duration at
1000 ms. -/
inductive ConnAttempt where
  | ok (durMs : Nat)
  | err (durMs : Nat) (msg : String)
  deriving Repr

/-- Loop of the port-readiness waiter (`waitForSocks5Ready` in `index.js`,
`waitForPortOpen` in the direct-connect handler variant): `attempts k` is
the `k`-th connection attempt, `t` the elapsed virtual time at the
`Date.now() - start < timeoutMs` check, and after a failed attempt of
duration `d` the loop sleeps `intervalMs`, so the next check happens at
`t + d + intervalMs`.  A failed attempt's error is consumed by the loop's
`catch` and never escapes; the only throw is the timeout error, modelled
as `.error t` carrying the time at which the guard failed.  `fuel` bounds
the iteration count; `none` means the fuel ran out before the deadline. -/
def portWaitGo (attempts : Nat → ConnAttempt) (timeoutMs intervalMs : Nat) :
    Nat → Nat → Nat → Option (Except Nat Nat)
  | _, t, 0 => if t < timeoutMs then none else some (.error t)
  | k, t, fuel + 1 =>
    if t < timeoutMs then
      match attempts k with
      | .ok d => some (.ok (t + d))
      | .err d _ => portWaitGo attempts timeoutMs intervalMs (k + 1)
          (t + d + intervalMs) fuel
    else some (.error t)

/-- The port-readiness waiter run from its start (elapsed time 0,
first attempt index 0).  `waitForSocks5Ready` instantiates
`timeoutMs = 10000` (its `timeout` option) and `intervalMs = 500`;
`waitForPortOpen` defaults to `timeoutMs = 15000`, `intervalMs = 500`. -/
def waitForPortOpen (attempts : Nat → ConnAttempt)
    (timeoutMs intervalMs fuel : Nat) : Option (Except Nat Nat) :=
  portWaitGo attempts timeoutMs intervalMs 0 0 fuel

/-- One observable effect of the Lambda handler in `index.js`, in program
order. -/
inductive HandlerStep where
  | tunnelRouteWait (targetIp : String)
  | debugStatus
  | secretFetch (arn : String)
  | socksReadyWait (port : Nat)
  | relayConnect (host : String) (port : Nat)
  | mqttConnect (host : String) (port : Nat)
  | publish (topic : String) (payload : JsValue)
  deriving Repr

/-- The handler's environment-variable surface: the four variables the
handler destructures plus the two further variables the construct may
set (which the handler never reads). -/
structure HandlerEnv where
  MQTT_BROKER_HOST : Option String
  MQTT_TOPIC : Option String
  MQTT_USERNAME_SECRET_ARN : Option String
  MQTT_PASSWORD_SECRET_ARN : Option String
  TAILSCALE_AUTH_KEY_SECRET_ARN : Option String
  MQTT_DNS_SERVER : Option String

/-- The secret-fetch effect of `X_SECRET_ARN ? await getSecret(...) :
undefined`: no fetch when the variable is unset or empty (falsy). -/
def secretSteps (arnOpt : Option String) : List HandlerStep :=
  match arnOpt with
  | none => []
  | some a => if a == "" then [] else [.secretFetch a]

/-- The effect trace of a handler invocation in which every awaited
operation succeeds on its first attempt (`exports.handler` in `index.js`):
validate `MQTT_BROKER_HOST` and `MQTT_TOPIC` (throwing — `none` — when
unset or empty), then unconditionally wait for a Tailscale route to the
broker host, dump the debug status, fetch the optional credentials, wait
for the local SOCKS5 relay port 1055, and inside `retry` open the relayed
connection to `host:1883`, connect MQTT over it and publish the payload
once with QoS 1. -/
def handlerSuccessSteps (env : HandlerEnv) (event : JsValue) (now : String) :
    Option (List HandlerStep) :=
  match env.MQTT_BROKER_HOST with
  | none => none
  | some host =>
    if host == "" then none
    else
      match env.MQTT_TOPIC with
      | none => none
      | some topic =>
        if topic == "" then none
        else
          some ([.tunnelRouteWait host, .debugStatus]
            ++ secretSteps env.MQTT_USERNAME_SECRET_ARN
            ++ secretSteps env.MQTT_PASSWORD_SECRET_ARN
            ++ [.socksReadyWait 1055, .relayConnect host 1883,
                .mqttConnect host 1883,
                .publish topic (buildPayload event now)])

/-- The payload of a publish step, `none` for every other step. -/
def publishOfStep : HandlerStep → Option JsValue
  | .publish _ p => some p
  | _ => none

/-- The construct's configuration surface
(`CodePipelineMqttNotifierProps`); the two optional booleans default to
`undefined`, i.e. `false` here. -/
structure NotifierProps where
  pipelineArnOrName : String
  mqttBrokerHost : String
  mqttTopic : String
  mqttBrokerDnsServer : Option String
  enableTailscale : Bool
  enableMqttAuth : Bool

/-- The Lambda environment the construct assembles
(`CodePipelineMqttNotifier.ts`): host and topic always; the DNS override
when configured; the Tailscale auth-key secret ARN only under
`enableTailscale`; the credential ARNs only under `enableMqttAuth`. -/
def constructEnvironment (props : NotifierProps)
    (tsArn userArn passArn : String) : HandlerEnv :=
  { MQTT_BROKER_HOST := some props.mqttBrokerHost
    MQTT_TOPIC := some props.mqttTopic
    MQTT_DNS_SERVER := props.mqttBrokerDnsServer
    TAILSCALE_AUTH_KEY_SECRET_ARN :=
      if props.enableTailscale then some tsArn else none
    MQTT_USERNAME_SECRET_ARN :=
      if props.enableMqttAuth then some userArn else none
    MQTT_PASSWORD_SECRET_ARN :=
      if props.enableMqttAuth then some passArn else none }

/-- The demo inbound event of the end-to-end scenario: a CodePipeline
state-change event for pipeline `Demo` with state `SUCCEEDED`. -/
def demoEvent : JsValue :=
  .vObj
    [ ("source", .vStr "aws.codepipeline"),
      ("detail-type", .vStr "CodePipeline Pipeline Execution State Change"),
      ("detail", .vObj [("pipeline", .vStr "Demo"),
                        ("state", .vStr "SUCCEEDED")]),
      ("time", .vStr "2025-01-01T00:00:00Z") ]

/-- A handler environment for a direct deployment: host and topic set,
no credentials, no Tailscale auth key, no DNS override. -/
def envDirect : HandlerEnv :=
  { MQTT_BROKER_HOST := some "1.2.3.4", MQTT_TOPIC := some "pipelines/demo",
    MQTT_USERNAME_SECRET_ARN := none, MQTT_PASSWORD_SECRET_ARN := none,
    TAILSCALE_AUTH_KEY_SECRET_ARN := none, MQTT_DNS_SERVER := none }

/-- The effect trace of the demo invocation under `envDirect`. -/
def demoSteps : List HandlerStep :=
  [ .tunnelRouteWait "1.2.3.4", .debugStatus, .socksReadyWait 1055,
    .relayConnect "1.2.3.4" 1883, .mqttConnect "1.2.3.4" 1883,
    .publish "pipelines/demo" (buildPayload demoEvent "2025-01-01T00:00:00Z") ]

/-- Construct configuration with the overlay (Tailscale) flag at its
default, i.e. disabled, and no MQTT auth. -/
def propsNoOverlay : NotifierProps :=
  { pipelineArnOrName := "MyPipeline", mqttBrokerHost := "1.2.3.4",
    mqttTopic := "pipelines/demo", mqttBrokerDnsServer := none,
    enableTailscale := false, enableMqttAuth := false }

/-- An abstract `JSON.parse` fragment: parses the stored secret string
`{"value":""}` (a JSON object whose `value` field is the empty string) and
nothing else. -/
def demoParse : String → Option JsValue := fun t =>
  if t == "\x7b\"value\":\"\"\x7d" then some (.vObj [("value", .vStr "")])
  else none

/-- An abstract `JSON.parse` fragment: parses the stored secret string
`{"value":"secret-user"}` and nothing else. -/
def demoParsePlain : String → Option JsValue := fun t =>
  if t == "\x7b\"value\":\"secret-user\"\x7d" then
    some (.vObj [("value", .vStr "secret-user")])
  else none

/-- An abstract `JSON.parse` fragment: parses the stored secret string
`5` (a JSON number, not an object) and nothing else. -/
def demoParseNum : String → Option JsValue := fun t =>
  if t == "5" then some (.vNum 5) else none

/-- A poll trace for the route wait: the first three polls throw, from the
fourth on the status shows one peer whose only Tailscale IP shares no
prefix with the broker host used in the witness. -/
def pollsAfterThree : Nat → Option (List TsPeer) := fun k =>
  if k < 3 then none else some [⟨some ["100.64.0.5"]⟩]

/-- Connection attempts that are all refused quickly (200 ms each). -/
def refusedAttempts : Nat → ConnAttempt := fun _ => .err 200 "ECONNREFUSED"

/-- Connection attempts that fail instantly 19 times and then hang for the
full 1000 ms per-attempt connection timeout. -/
def slowFailAttempts : Nat → ConnAttempt := fun k =>
  if k < 19 then .err 0 "ECONNREFUSED" else .err 1000 "SOCKS5 port timeout"

/-! ### Helper lemmas -/

/-- Nullish coalescing picks the default exactly on a nullish operand. -/
theorem coalesce_of_nullish {o : Option JsValue} {d : JsValue}
    (h : nullish o = true) : coalesce o d = d := by
  match o with
  | none => rfl
  | some .vNull => rfl
  | some (.vBool b) => simp [nullish] at h
  | some (.vNum n) => simp [nullish] at h
  | some (.vStr s) => simp [nullish] at h
  | some (.vArr es) => simp [nullish] at h
  | some (.vObj fs) => simp [nullish] at h

/-- The value of `jsMember` at an object literal. -/
theorem jsMember_vObj (fs : List (String × JsValue)) (key : String) :
    jsMember (.vObj fs) key = lookupField fs key := rfl

/-- The secret-fetch effects contain no publish. -/
theorem secretSteps_no_publish (o : Option String) :
    (secretSteps o).filterMap publishOfStep = [] := by
  cases o with
  | none => rfl
  | some a =>
    simp only [secretSteps]
    by_cases h : (a == "") = true
    · rw [if_pos h]; rfl
    · rw [if_neg h]; rfl

/-! ### C1: outbound payload shape -/

/-- C1 counterexample: at the demo event the payload built by the handler
has no `subject` field at all — its field set is `{eventSource, detailType,
pipeline, state, time, raw}` — so the claimed payload shape (with
`"subject":"Demo"`) is false on the code. -/
theorem c1_counterexample :
    jsMember (buildPayload demoEvent "2025-01-01T00:00:00Z") "subject" = none
    ∧ fieldNames (buildPayload demoEvent "2025-01-01T00:00:00Z") =
        ["eventSource", "detailType", "pipeline", "state", "time", "raw"] :=
  ⟨rfl, rfl⟩

/-- C1 (amended): a handler invocation in which every awaited operation
succeeds performs exactly one publish, whose payload has exactly the fields
`{eventSource, detailType, pipeline, state, time, raw}` with `raw` the full
inbound event unchanged; for the demo event the payload contains
`"pipeline":"Demo"`. -/
theorem c1_payload_shape_amended (env : HandlerEnv) (event : JsValue)
    (now : String) (steps : List HandlerStep)
    (h : handlerSuccessSteps env event now = some steps) :
    steps.filterMap publishOfStep = [buildPayload event now]
    ∧ fieldNames (buildPayload event now) =
        ["eventSource", "detailType", "pipeline", "state", "time", "raw"]
    ∧ jsMember (buildPayload event now) "raw" = some event
    ∧ jsMember (buildPayload demoEvent "2025-01-01T00:00:00Z") "pipeline" =
        some (.vStr "Demo") := by
  refine ⟨?_, rfl, rfl, rfl⟩
  unfold handlerSuccessSteps at h
  split at h
  · exact Option.noConfusion h
  · split at h
    · exact Option.noConfusion h
    · split at h
      · exact Option.noConfusion h
      · split at h
        · exact Option.noConfusion h
        · injection h with h
          subst h
          simp [List.filterMap_append, secretSteps_no_publish,
            List.filterMap, publishOfStep]

/-- C1 witness: the amended statement instantiated at the direct demo
deployment and the demo event. -/
theorem c1_payload_shape_witness :
    demoSteps.filterMap publishOfStep =
      [buildPayload demoEvent "2025-01-01T00:00:00Z"]
    ∧ fieldNames (buildPayload demoEvent "2025-01-01T00:00:00Z") =
        ["eventSource", "detailType", "pipeline", "state", "time", "raw"]
    ∧ jsMember (buildPayload demoEvent "2025-01-01T00:00:00Z") "raw" =
        some demoEvent
    ∧ jsMember (buildPayload demoEvent "2025-01-01T00:00:00Z") "pipeline" =
        some (.vStr "Demo") :=
  c1_payload_shape_amended envDirect demoEvent "2025-01-01T00:00:00Z"
    demoSteps rfl

/-! ### C2: the overlay flag does not alter the connection path -/

/-- C2: deploying the construct with `enableTailscale` at its default
(`false`) still yields a handler invocation that waits for a Tailscale
peer route to the broker host and connects through the local SOCKS5 relay
(`socks5h://localhost:1055`) — there is no direct-connect path and no flag
the handler consults. -/
theorem c2_overlay_flag_ignored :
    propsNoOverlay.enableTailscale = false
    ∧ handlerSuccessSteps
        (constructEnvironment propsNoOverlay "tsArn" "userArn" "passArn")
        demoEvent "2025-01-01T00:00:00Z" =
      some [.tunnelRouteWait "1.2.3.4", .debugStatus, .socksReadyWait 1055,
            .relayConnect "1.2.3.4" 1883, .mqttConnect "1.2.3.4" 1883,
            .publish "pipelines/demo"
              (buildPayload demoEvent "2025-01-01T00:00:00Z")] :=
  ⟨rfl, rfl⟩

/-! ### C5: absent inbound fields default to "unknown" (time to now) -/

/-- C5: for any inbound event, each absent (nullish) source field makes the
corresponding payload field the literal string `"unknown"`, and an absent
`time` becomes the current time `now`; the defaulted fields are therefore
never null or undefined. -/
theorem c5_missing_fields_default (ev : JsValue) (now : String) :
    (nullish (jsMember ev "source") = true →
      jsMember (buildPayload ev now) "eventSource" = some (.vStr "unknown"))
    ∧ (nullish (jsMember ev "detail-type") = true →
      jsMember (buildPayload ev now) "detailType" = some (.vStr "unknown"))
    ∧ (nullish (optChain ev "detail" "pipeline") = true →
      jsMember (buildPayload ev now) "pipeline" = some (.vStr "unknown"))
    ∧ (nullish (optChain ev "detail" "state") = true →
      jsMember (buildPayload ev now) "state" = some (.vStr "unknown"))
    ∧ (nullish (jsMember ev "time") = true →
      jsMember (buildPayload ev now) "time" = some (.vStr now)) := by
  refine ⟨fun h => ?_, fun h => ?_, fun h => ?_, fun h => ?_, fun h => ?_⟩ <;>
    simp [buildPayload, jsMember_vObj, lookupField, coalesce_of_nullish h]

/-- C5 witness: the empty-object event has every field absent, and every
payload field of it defaults as claimed. -/
theorem c5_missing_fields_witness :
    jsMember (buildPayload (.vObj []) "2025-01-01T00:00:00Z") "eventSource" =
      some (.vStr "unknown")
    ∧ jsMember (buildPayload (.vObj []) "2025-01-01T00:00:00Z") "detailType" =
      some (.vStr "unknown")
    ∧ jsMember (buildPayload (.vObj []) "2025-01-01T00:00:00Z") "pipeline" =
      some (.vStr "unknown")
    ∧ jsMember (buildPayload (.vObj []) "2025-01-01T00:00:00Z") "state" =
      some (.vStr "unknown")
    ∧ jsMember (buildPayload (.vObj []) "2025-01-01T00:00:00Z") "time" =
      some (.vStr "2025-01-01T00:00:00Z") := by
  have h := c5_missing_fields_default (.vObj []) "2025-01-01T00:00:00Z"
  exact ⟨h.1 rfl, h.2.1 rfl, h.2.2.1 rfl, h.2.2.2.1 rfl, h.2.2.2.2 rfl⟩

/-! ### C3 and C9: the retry orchestrator -/

/-- Behaviour of the retry loop body on an always-failing attempt function,
indexed by the number of remaining iterations. -/
theorem retryGo_allFail {E A : Type} (fn : Nat → Except E A) (err : Nat → E)
    (hf : ∀ k, fn k = .error (err k)) (d : Nat) :
    ∀ left attempt, retryGo fn d attempt (left + 1) =
      { result := .error (err (attempt + left)), calls := left + 1,
        delays := (List.range left).map (fun i => d * (attempt + i)) } := by
  intro left
  induction left with
  | zero =>
    intro attempt
    simp [retryGo, hf attempt]
  | succ m ih =>
    intro attempt
    have h1 : retryGo fn d attempt (m + 1 + 1) =
        { result := (retryGo fn d (attempt + 1) (m + 1)).result,
          calls := (retryGo fn d (attempt + 1) (m + 1)).calls + 1,
          delays := d * attempt ::
            (retryGo fn d (attempt + 1) (m + 1)).delays } := by
      conv_lhs => rw [retryGo]
      rw [hf attempt]
    rw [h1, ih (attempt + 1)]
    have he : attempt + 1 + m = attempt + (m + 1) := by omega
    rw [he]
    congr 1
    rw [List.range_succ_eq_map, List.map_cons, List.map_map]
    refine congrArg₂ List.cons (by simp) ?_
    apply List.map_congr_left
    intro i _
    simp only [Function.comp_apply, Nat.succ_eq_add_one]
    ring

/-- C3: for any attempt function that fails on every call, `retry` with
`retries = n ≥ 1` calls the function exactly `n` times, sleeps
`delayMs * k` after the `k`-th failure for every `k < n`, and throws the
`n`-th call's error itself, unwrapped. -/
theorem c3_retry_exhaustion {E A : Type} (fn : Nat → Except E A)
    (err : Nat → E) (hf : ∀ k, fn k = .error (err k)) (retries : Int)
    (hr : 1 ≤ retries) (d : Nat) :
    retry fn retries d =
      { result := .error (err retries.toNat), calls := retries.toNat,
        delays := (List.range (retries.toNat - 1)).map
          (fun i => d * (i + 1)) } := by
  unfold retry
  obtain ⟨m, hm⟩ : ∃ m, retries.toNat = m + 1 := ⟨retries.toNat - 1, by omega⟩
  rw [hm, retryGo_allFail fn err hf d m 1]
  have he : 1 + m = m + 1 := by omega
  rw [he]
  congr 1
  simp only [Nat.add_sub_cancel]
  apply List.map_congr_left
  intro i _
  ring

/-- C3 witness: the always-failing function `k ↦ error k` with
`retries = 3`, `delayMs = 2000` is called 3 times, sleeps 2000 ms then
4000 ms, and the thrown error is the third call's error `3`. -/
theorem c3_retry_exhaustion_witness :
    retry (fun k => (Except.error k : Except Nat Nat)) 3 2000 =
      { result := .error 3, calls := 3, delays := [2000, 4000] } := by
  rw [c3_retry_exhaustion (fun k => (Except.error k : Except Nat Nat))
    (fun k => k) (fun _ => rfl) 3 (by omega) 2000]
  decide

/-- C9: `retry` with any `retries` value below 1 returns `undefined` like a
success, never calls the attempt function, sleeps never, and throws
nothing. -/
theorem c9_retry_zero {E A : Type} (fn : Nat → Except E A) (d : Nat)
    (retries : Int) (hr : retries < 1) :
    retry fn retries d = { result := .ok none, calls := 0, delays := [] } := by
  unfold retry
  have h : retries.toNat = 0 := by omega
  rw [h]
  rfl

/-- C9 witness: `retries = 0` with an always-failing function returns
`undefined` with zero calls. -/
theorem c9_retry_zero_witness :
    retry (fun k => (Except.error k : Except Nat Nat)) 0 2000 =
      { result := .ok none, calls := 0, delays := [] } :=
  c9_retry_zero (fun k => (Except.error k : Except Nat Nat)) 2000 0
    (by omega)

/-! ### C6: the Tailscale route wait -/

/-- Shifting a bounded universal over `j < f + 1` by one. -/
theorem forall_lt_succ_shift (P : Nat → Prop) (k f : Nat) :
    (∀ j, j < f + 1 → P (k + j)) ↔ P k ∧ ∀ j, j < f → P (k + 1 + j) := by
  constructor
  · intro h
    refine ⟨by simpa using h 0 (by omega), fun j hj => ?_⟩
    have hx := h (j + 1) (by omega)
    have e : k + (j + 1) = k + 1 + j := by omega
    rwa [e] at hx
  · rintro ⟨h0, h⟩ j hj
    cases j with
    | zero => simpa using h0
    | succ i =>
      have hx := h i (by omega)
      have e : k + 1 + i = k + (i + 1) := by omega
      rwa [e] at hx

/-- A non-empty peer list passes the loop's success test whatever the
address matching says. -/
theorem routeCond_of_ne_nil (tip : String) (peers : List TsPeer)
    (h : peers ≠ []) :
    (peers.any (peerMatches tip) || peers.length != 0) = true := by
  have : (peers.length != 0) = true := by
    simp [List.length_eq_zero, h]
  rw [this, Bool.or_true]

/-- The route-wait loop throws the timeout error exactly when every poll it
was allowed reported no peer. -/
theorem routeWaitGo_timeout_iff (polls : Nat → Option (List TsPeer))
    (tip : String) (mw : Nat) :
    ∀ fuel k,
      (routeWaitGo polls tip mw k fuel = .error (tsTimeoutMsg mw) ↔
        ∀ j, j < fuel → noPeerReport (polls (k + j)) = true) := by
  intro fuel
  induction fuel with
  | zero => intro k; simp [routeWaitGo]
  | succ f ih =>
    intro k
    rw [forall_lt_succ_shift (fun n => noPeerReport (polls n) = true) k f]
    cases hp : polls k with
    | none =>
      have hstep : routeWaitGo polls tip mw k (f + 1) =
          routeWaitGo polls tip mw (k + 1) f := by
        simp [routeWaitGo, hp]
      rw [hstep, ih (k + 1)]
      simp [noPeerReport, hp]
    | some peers =>
      cases hne : peers with
      | nil =>
        have hstep : routeWaitGo polls tip mw k (f + 1) =
            routeWaitGo polls tip mw (k + 1) f := by
          simp [routeWaitGo, hp, hne, peerMatches]
        rw [hstep, ih (k + 1)]
        simp [noPeerReport, hp, hne]
      | cons p rest =>
        have hc := routeCond_of_ne_nil tip peers (by rw [hne]; simp)
        have hstep : routeWaitGo polls tip mw k (f + 1) = .ok k := by
          simp [routeWaitGo, hp, hc]
        rw [hstep]
        constructor
        · intro hok
          exact absurd hok (by simp)
        · rintro ⟨h0, _⟩
          simp [noPeerReport, hp, hne] at h0

/-- The route-wait loop succeeds at the first poll that reports any peer,
provided the deadline has not been exhausted before it. -/
theorem routeWaitGo_first_success (polls : Nat → Option (List TsPeer))
    (tip : String) (mw : Nat) :
    ∀ j fuel k peers, j < fuel →
      (∀ i, i < j → noPeerReport (polls (k + i)) = true) →
      polls (k + j) = some peers → peers ≠ [] →
      routeWaitGo polls tip mw k fuel = .ok (k + j) := by
  intro j
  induction j with
  | zero =>
    intro fuel k peers hj _ hp hne
    obtain ⟨f, rfl⟩ : ∃ f, fuel = f + 1 := ⟨fuel - 1, by omega⟩
    rw [Nat.add_zero] at hp
    have hc := routeCond_of_ne_nil tip peers hne
    simp [routeWaitGo, hp, hc]
  | succ i ih =>
    intro fuel k peers hj hbefore hp hne
    obtain ⟨f, rfl⟩ : ∃ f, fuel = f + 1 := ⟨fuel - 1, by omega⟩
    have h0 := hbefore 0 (by omega)
    rw [Nat.add_zero] at h0
    have hrec : routeWaitGo polls tip mw (k + 1) f = .ok (k + 1 + i) := by
      apply ih f (k + 1) peers (by omega)
      · intro i' hi'
        have hx := hbefore (i' + 1) (by omega)
        have e : k + (i' + 1) = k + 1 + i' := by omega
        rwa [e] at hx
      · have e : k + (i + 1) = k + 1 + i := by omega
        rwa [e] at hp
      · exact hne
    have e2 : k + (i + 1) = k + 1 + i := by omega
    rw [e2]
    cases hpk : polls k with
    | none =>
      rw [← hrec]
      simp [routeWaitGo, hpk]
    | some peers0 =>
      rw [hpk] at h0
      have hnil : peers0 = [] := by
        simpa [noPeerReport, List.isEmpty_iff] using h0
      subst hnil
      rw [← hrec]
      simp [routeWaitGo, hpk, peerMatches]

/-- C6: the route wait (a) throws the route-timeout error exactly when no
poll within the deadline's `⌈maxWaitMs / intervalMs⌉` iterations reports
any peer, after which it polls no more, and (b) returns success at the
first poll reporting a non-empty peer set, even when no peer address
matches the configured broker host (the hypothesis that every peer fails
the address match is allowed but not needed). -/
theorem c6_route_wait (polls : Nat → Option (List TsPeer)) (tip : String)
    (mw iv : Nat) :
    (waitForTailscaleRoute polls tip mw iv = .error (tsTimeoutMsg mw) ↔
      ∀ j, j < numPolls mw iv → noPeerReport (polls j) = true)
    ∧ (∀ j peers, j < numPolls mw iv →
        (∀ i, i < j → noPeerReport (polls i) = true) →
        polls j = some peers → peers ≠ [] →
        waitForTailscaleRoute polls tip mw iv = .ok j) := by
  constructor
  · have h := routeWaitGo_timeout_iff polls tip mw (numPolls mw iv) 0
    simpa using h
  · intro j peers hj hbefore hp hne
    have h := routeWaitGo_first_success polls tip mw j (numPolls mw iv) 0
      peers hj (by simpa using hbefore) (by simpa using hp) hne
    simpa using h

/-- C6 witness: with the first three polls throwing and the fourth
reporting a single peer whose IP `100.64.0.5` shares no prefix with the
broker host `192.168.1.10` (the address match fails), the wait under the
source defaults 20000 ms / 1000 ms — 20 polls — succeeds at poll 3. -/
theorem c6_route_wait_witness :
    waitForTailscaleRoute pollsAfterThree "192.168.1.10" 20000 1000 =
      .ok 3
    ∧ peerMatches "192.168.1.10" ⟨some ["100.64.0.5"]⟩ = false :=
  ⟨(c6_route_wait pollsAfterThree "192.168.1.10" 20000 1000).2 3
      [⟨some ["100.64.0.5"]⟩] (by decide)
      (by intro i hi; interval_cases i <;> rfl) rfl (by decide),
    by decide⟩

/-! ### C7: the port-readiness waiter -/

/-- On attempts that all fail (each within the 1000 ms per-attempt
connection cap) and with enough fuel for the deadline, the waiter ends in
its own timeout throw: at the current time when the guard already failed,
otherwise no earlier than the deadline and strictly before
`timeoutMs + 1000 + intervalMs`.  Individual attempt errors never become
the result. -/
theorem portWaitGo_allFail (attempts : Nat → ConnAttempt)
    (timeoutMs intervalMs : Nat)
    (hfail : ∀ j, ∃ d m, attempts j = ConnAttempt.err d m ∧ d ≤ 1000) :
    ∀ fuel k t, timeoutMs ≤ t + fuel * intervalMs →
    ∃ u, portWaitGo attempts timeoutMs intervalMs k t fuel =
        some (.error u)
      ∧ ((timeoutMs ≤ t ∧ u = t) ∨
         (t < timeoutMs ∧ timeoutMs ≤ u ∧
          u < timeoutMs + 1000 + intervalMs)) := by
  intro fuel
  induction fuel with
  | zero =>
    intro k t h
    have hge : timeoutMs ≤ t := by simpa using h
    refine ⟨t, ?_, Or.inl ⟨hge, rfl⟩⟩
    simp [portWaitGo, Nat.not_lt.mpr hge]
  | succ f ih =>
    intro k t h
    by_cases hlt : t < timeoutMs
    · obtain ⟨d, m, ha, hd⟩ := hfail k
      have hcond : timeoutMs ≤ t + d + intervalMs + f * intervalMs := by
        rw [Nat.succ_mul] at h
        omega
      obtain ⟨u, hu, hcase⟩ := ih (k + 1) (t + d + intervalMs) hcond
      have hstep : portWaitGo attempts timeoutMs intervalMs k t (f + 1) =
          portWaitGo attempts timeoutMs intervalMs (k + 1)
            (t + d + intervalMs) f := by
        simp [portWaitGo, hlt, ha]
      refine ⟨u, by rw [hstep]; exact hu, Or.inr ?_⟩
      rcases hcase with ⟨h1, h2⟩ | ⟨h1, h2, h3⟩
      · exact ⟨hlt, by omega, by omega⟩
      · exact ⟨hlt, h2, h3⟩
    · have hge := Nat.not_lt.mp hlt
      refine ⟨t, ?_, Or.inl ⟨hge, rfl⟩⟩
      simp [portWaitGo, hlt]

/-- C7 counterexample: with 19 instant refusals followed by an attempt
that consumes its full 1000 ms connection timeout, the waiter with
`timeoutMs = 10000`, `intervalMs = 500` throws at 11000 ms — later than
the claimed bound `timeoutMs + intervalMs = 10500` — so the claimed bound
is false on the code. -/
theorem c7_counterexample :
    waitForPortOpen slowFailAttempts 10000 500 30 = some (.error 11000)
    ∧ ¬(11000 ≤ 10000 + 500) :=
  ⟨rfl, by omega⟩

/-- C7 (amended): when no attempt ever succeeds (each failing within the
1000 ms per-attempt connection timeout), the waiter throws its own timeout
error — never an individual attempt's error — no earlier than `timeoutMs`
and strictly before `timeoutMs + 1000 + intervalMs`. -/
theorem c7_port_wait_amended (attempts : Nat → ConnAttempt)
    (timeoutMs intervalMs fuel : Nat)
    (hfail : ∀ j, ∃ d m, attempts j = ConnAttempt.err d m ∧ d ≤ 1000)
    (hfuel : timeoutMs ≤ fuel * intervalMs) :
    ∃ u, waitForPortOpen attempts timeoutMs intervalMs fuel =
        some (.error u)
      ∧ timeoutMs ≤ u ∧ u < timeoutMs + 1000 + intervalMs := by
  obtain ⟨u, hu, hcase⟩ :=
    portWaitGo_allFail attempts timeoutMs intervalMs hfail fuel 0 0
      (by simpa using hfuel)
  refine ⟨u, hu, ?_⟩
  rcases hcase with ⟨h1, h2⟩ | ⟨h1, h2, h3⟩
  · constructor <;> omega
  · exact ⟨h2, h3⟩

/-- C7 witness: the amended bound at attempts that are all refused after
200 ms, with `timeoutMs = 10000`, `intervalMs = 500` and fuel for the
deadline. -/
theorem c7_port_wait_amended_witness :
    ∃ u, waitForPortOpen refusedAttempts 10000 500 20 = some (.error u)
      ∧ 10000 ≤ u ∧ u < 10000 + 1000 + 500 :=
  c7_port_wait_amended refusedAttempts 10000 500 20
    (fun j => ⟨200, "ECONNREFUSED", rfl, by omega⟩) (by omega)

/-! ### C4, C8, C10: the secret resolver and the placeholder warning -/

/-- Correctness of the Bool-valued prefix test. -/
theorem isPrefixList_iff (p l : List Char) :
    isPrefixList p l = true ↔ ∃ t, l = p ++ t := by
  induction p generalizing l with
  | nil => simp [isPrefixList]
  | cons a as ih =>
    cases l with
    | nil => simp [isPrefixList]
    | cons b bs =>
      simp only [isPrefixList, Bool.and_eq_true, beq_iff_eq, ih]
      constructor
      · rintro ⟨rfl, t, rfl⟩
        exact ⟨t, rfl⟩
      · rintro ⟨t, ht⟩
        injection ht with h1 h2
        exact ⟨h1.symm, t, h2⟩

/-- Correctness of the Bool-valued substring test: `containsSub p l` holds
exactly when `p` occurs contiguously inside `l`. -/
theorem containsSub_iff (p l : List Char) :
    containsSub p l = true ↔ ∃ pre post, l = pre ++ (p ++ post) := by
  induction l with
  | nil =>
    simp only [containsSub, isPrefixList_iff]
    constructor
    · rintro ⟨t, ht⟩
      exact ⟨[], t, ht⟩
    · rintro ⟨pre, post, hpp⟩
      have hnil : pre = [] ∧ p = [] ∧ post = [] := by
        have h2 := hpp.symm
        simpa [List.append_eq_nil] using h2
      exact ⟨[], by simp [hnil.2.1]⟩
  | cons c rest ih =>
    simp only [containsSub, Bool.or_eq_true, isPrefixList_iff, ih]
    constructor
    · rintro (⟨t, ht⟩ | ⟨pre, post, hpp⟩)
      · exact ⟨[], t, ht⟩
      · exact ⟨c :: pre, post, by rw [hpp]; rfl⟩
    · rintro ⟨pre, post, hpp⟩
      cases pre with
      | nil => exact Or.inl ⟨post, by simpa using hpp⟩
      | cons x xs =>
        injection hpp with h1 h2
        exact Or.inr ⟨xs, post, h2⟩

/-- C4 counterexample: (a) for the stored string `{"value":""}` — a JSON
object containing a `value` field — `getSecret` returns the raw stored
string, not the (empty) field, refuting "containing a `value` field the
resolver returns that field"; (b) the placeholder warning fires for
`REPLACE_WITH_MQTT_USERNAMEZ`, a value not equal to the sentinel, refuting
"a non-placeholder value triggers no warning". -/
theorem c4_counterexample :
    (getSecret demoParse (some "arn-user") ⟨some "\x7b\"value\":\"\"\x7d"⟩ =
        some (.vStr "\x7b\"value\":\"\"\x7d")
      ∧ some (JsValue.vStr "\x7b\"value\":\"\"\x7d") ≠
        some (JsValue.vStr ""))
    ∧ (usernamePlaceholderWarn (some "REPLACE_WITH_MQTT_USERNAMEZ") = true
      ∧ "REPLACE_WITH_MQTT_USERNAMEZ" ≠ usernameSentinel) :=
  ⟨⟨rfl, by simp⟩, ⟨by decide, by decide⟩⟩

/-- C4 (amended): for every non-empty secret reference that resolves,
(a) if the stored string parses as a JSON object whose `value` field is
present, the resolver returns that field when it is truthy and the raw
stored string otherwise; in every other case — the object has no `value`
field, the parse result is not an object (string, number, boolean, null
or array), or the stored string does not parse at all — the raw stored
string is returned verbatim; (b) the username placeholder warning fires
exactly when the resolved value is a non-empty string containing the
sentinel `REPLACE_WITH_MQTT_USERNAME` as a substring. -/
theorem c4_secret_resolution_amended (parse : String → Option JsValue)
    (a s : String) (resp : SecretsResponse) (ha : a ≠ "")
    (hs : resp.SecretString = some s) :
    (∀ fields v, parse s = some (.vObj fields) →
      lookupField fields "value" = some v →
      getSecret parse (some a) resp =
        if truthy v then some v else some (.vStr s))
    ∧ (∀ fields, parse s = some (.vObj fields) →
      lookupField fields "value" = none →
      getSecret parse (some a) resp = some (.vStr s))
    ∧ (∀ j, parse s = some j → (∀ fields, j ≠ .vObj fields) →
      getSecret parse (some a) resp = some (.vStr s))
    ∧ (parse s = none → getSecret parse (some a) resp = some (.vStr s))
    ∧ (∀ u : String, usernamePlaceholderWarn (some u) = true ↔
        u ≠ "" ∧ ∃ pre post,
          u.data = pre ++ (usernameSentinel.data ++ post)) := by
  refine ⟨?_, ?_, ?_, ?_, ?_⟩
  · intro fields v hp hv
    simp [getSecret, hs, hp, hv, ha]
  · intro fields hp hv
    simp [getSecret, hs, hp, hv, ha]
  · intro j hp hno
    cases j with
    | vObj fields => exact absurd rfl (hno fields)
    | vNull => simp [getSecret, hs, hp, ha]
    | vBool b => simp [getSecret, hs, hp, ha]
    | vNum n => simp [getSecret, hs, hp, ha]
    | vStr t => simp [getSecret, hs, hp, ha]
    | vArr es => simp [getSecret, hs, hp, ha]
  · intro hp
    simp [getSecret, hs, hp, ha]
  · intro u
    simp only [usernamePlaceholderWarn, jsIncludes, Bool.and_eq_true,
      bne_iff_ne, ne_eq, containsSub_iff]

/-- C4 witness: the amended statement at the stored string
`{"value":"secret-user"}`, whose truthy `value` field is returned, and at
the stored string `5`, which parses to a non-object JSON value and
resolves to the raw stored string verbatim. -/
theorem c4_secret_resolution_amended_witness :
    getSecret demoParsePlain (some "arn-user2")
      ⟨some "\x7b\"value\":\"secret-user\"\x7d"⟩ =
      some (.vStr "secret-user")
    ∧ getSecret demoParseNum (some "arn-user3") ⟨some "5"⟩ =
      some (.vStr "5") := by
  constructor
  · have h := c4_secret_resolution_amended demoParsePlain "arn-user2"
      "\x7b\"value\":\"secret-user\"\x7d"
      ⟨some "\x7b\"value\":\"secret-user\"\x7d"⟩ (by decide) rfl
    have h2 := h.1 [("value", .vStr "secret-user")] (.vStr "secret-user")
      rfl rfl
    simpa [truthy] using h2
  · have h := c4_secret_resolution_amended demoParseNum "arn-user3" "5"
      ⟨some "5"⟩ (by decide) rfl
    exact h.2.2.1 (.vNum 5) rfl
      (fun fields hobj => JsValue.noConfusion hobj)

/-- C8: when the stored string parses as a JSON object whose `value` field
is present but falsy, `getSecret` returns the raw stored JSON string, not
the field — the structured-value unwrap requires a truthy `value`. -/
theorem c8_falsy_value_not_unwrapped (parse : String → Option JsValue)
    (a s : String) (resp : SecretsResponse) (ha : a ≠ "")
    (hs : resp.SecretString = some s)
    (fields : List (String × JsValue)) (v : JsValue)
    (hp : parse s = some (.vObj fields))
    (hv : lookupField fields "value" = some v)
    (hf : truthy v = false) :
    getSecret parse (some a) resp = some (.vStr s) := by
  simp [getSecret, hs, hp, hv, hf, ha]

/-- C8 witness: the stored string `{"value":""}` has a present but falsy
`value` field and resolves to the raw stored JSON string. -/
theorem c8_falsy_value_witness :
    getSecret demoParse (some "arn-user") ⟨some "\x7b\"value\":\"\"\x7d"⟩ =
      some (.vStr "\x7b\"value\":\"\"\x7d") :=
  c8_falsy_value_not_unwrapped demoParse "arn-user" "\x7b\"value\":\"\"\x7d"
    ⟨some "\x7b\"value\":\"\"\x7d"⟩ (by decide) rfl
    [("value", .vStr "")] (.vStr "") rfl rfl rfl

/-- C10: a store response without a `SecretString` member makes `getSecret`
return `undefined` without throwing, the same result as for an absent
reference. -/
theorem c10_no_secret_string (parse : String → Option JsValue) (a : String)
    (ha : a ≠ "") (resp : SecretsResponse) (hs : resp.SecretString = none) :
    getSecret parse (some a) resp = none
    ∧ getSecret parse (some a) resp = getSecret parse none resp := by
  constructor
  · simp [getSecret, hs, ha]
  · simp [getSecret, hs, ha]

/-- C10 witness: a binary-only response for a present reference resolves to
`undefined`, like an absent reference. -/
theorem c10_no_secret_string_witness :
    getSecret demoParse (some "arn-binary") ⟨none⟩ = none
    ∧ getSecret demoParse (some "arn-binary") ⟨none⟩ =
      getSecret demoParse none ⟨none⟩ :=
  c10_no_secret_string demoParse "arn-binary" (by decide) ⟨none⟩ rfl

end MqttNotifier
